import Mathlib

/-!
Shallow embedding of the adaptive RPC load balancer (`RPCLoadBalancer` and the
module-level helpers around it).  JavaScript numbers are modelled as rationals
(`Rat`), timestamps (`Date.now()` values, milliseconds) as integers (`Int`),
counters as naturals, and `number | undefined` fields as `Option Int`.
-/

/-- `maxFailures` constant of `RPCLoadBalancer` (3). -/
def maxFailures : Nat := 3

/-- `baseBackoffDelay` constant of `RPCLoadBalancer` (1000 ms). -/
def baseBackoffDelay : Int := 1000

/-- `maxBackoffDelay` constant of `RPCLoadBalancer` (300000 ms). -/
def maxBackoffDelay : Int := 300000

/-- `backoffMultiplier` constant of `RPCLoadBalancer` (2). -/
def backoffMultiplier : Int := 2

/-- `failureWeightPenalty` constant of `RPCLoadBalancer` (0.5). -/
def failureWeightPenalty : Rat := 1/2

/-- `minEffectiveWeight` constant of `RPCLoadBalancer` (0.1). -/
def minEffectiveWeight : Rat := 1/10

/-- `maxConsecutiveFailures` constant of `RPCLoadBalancer` (5). -/
def maxConsecutiveFailures : Nat := 5

/-- `recoveryThreshold` constant of `RPCLoadBalancer` (3). -/
def recoveryThreshold : Nat := 3

/-- The `EndpointConfig` record of the source.  `lastFailureTime`,
`lastHealthCheck` and `lastSuccessTime` are optional in the source
(`number | undefined`). -/
structure EndpointConfig where
  url : String
  isActive : Bool
  failureCount : Nat
  lastFailureTime : Option Int
  backoffDelay : Int
  weight : Rat
  currentWeight : Rat
  effectiveWeight : Rat
  responseTime : Rat
  successCount : Nat
  totalRequests : Nat
  lastHealthCheck : Option Int
  isHealthy : Bool
  consecutiveFailures : Nat
  consecutiveSuccesses : Nat
  lastSuccessTime : Option Int
  deriving DecidableEq, Repr, Inhabited

/-- The endpoint record pushed by `loadEndpointsFromEnv` for a (trimmed)
configured URL. -/
def mkEndpoint (u : String) : EndpointConfig :=
  { url := u
    isActive := true
    failureCount := 0
    lastFailureTime := none
    backoffDelay := baseBackoffDelay
    weight := 1
    currentWeight := 1
    effectiveWeight := 1
    responseTime := 0
    successCount := 0
    totalRequests := 0
    lastHealthCheck := none
    isHealthy := true
    consecutiveFailures := 0
    consecutiveSuccesses := 0
    lastSuccessTime := none }

/-- JavaScript `String.prototype.trim`: strips leading and trailing
whitespace. -/
def jsTrim (s : String) : String :=
  String.mk (((s.data.dropWhile Char.isWhitespace).reverse.dropWhile Char.isWhitespace).reverse)

/-- `loadEndpointsFromEnv`, applied to the ordered list of values of the
`ENDPPOINT` / `ENDPPOINT<n>` environment variables.  The source keeps a value
only when `url && url.trim()` is truthy, i.e. when the trimmed string is
nonempty, and stores the trimmed string verbatim as the URL with all the
initial field values of `mkEndpoint`. -/
def loadEndpointsFromEnv (vals : List String) : List EndpointConfig :=
  vals.filterMap (fun u => if jsTrim u = "" then none else some (mkEndpoint (jsTrim u)))

/-- JavaScript truthiness of a `number | undefined` value: `undefined` and `0`
are falsy. -/
def jsTruthyTime : Option Int → Bool
  | none => false
  | some t => t != 0

/-- Body of the loop of `checkEndpointRecovery` for one endpoint: if the
endpoint is inactive, has a (truthy) `lastFailureTime` and the backoff window
has elapsed, it is reactivated with `failureCount = 0`,
`backoffDelay = baseBackoffDelay`, `currentWeight = effectiveWeight`,
`consecutiveFailures = 0`.  `isHealthy` is not touched. -/
def recoverEndpoint (now : Int) (ep : EndpointConfig) : EndpointConfig :=
  match ep.lastFailureTime with
  | none => ep
  | some t =>
      if ep.isActive = false ∧ t ≠ 0 ∧ ep.backoffDelay ≤ now - t then
        { ep with isActive := true
                  failureCount := 0
                  backoffDelay := baseBackoffDelay
                  currentWeight := ep.effectiveWeight
                  consecutiveFailures := 0 }
      else ep

/-- `checkEndpointRecovery`: applies `recoverEndpoint` to every endpoint. -/
def checkEndpointRecovery (now : Int) (eps : List EndpointConfig) : List EndpointConfig :=
  eps.map (recoverEndpoint now)

/-- `adjustEffectiveWeight`.  On success the weight and effective weight are
both set to `max(0.1, min(5.0, 1 + successRate * 2))` with
`successRate = successCount / totalRequests` (0 when `totalRequests = 0`); on
failure the effective weight is halved, floored at `minEffectiveWeight`. -/
def adjustEffectiveWeight (ep : EndpointConfig) (isSuccess : Bool) : EndpointConfig :=
  if isSuccess then
    let successRate : Rat :=
      if ep.totalRequests > 0 then (ep.successCount : Rat) / (ep.totalRequests : Rat) else 0
    let newWeight : Rat := max (1/10) (min 5 (1 + successRate * 2))
    { ep with weight := newWeight, effectiveWeight := newWeight }
  else
    { ep with effectiveWeight := max minEffectiveWeight (ep.effectiveWeight * failureWeightPenalty) }

/-- `markEndpointFailure`: bumps the failure counters, records the failure
time, applies the failure weight penalty, and deactivates the endpoint
(doubling `backoffDelay` up to `maxBackoffDelay`) when
`failureCount >= maxFailures` or
`consecutiveFailures >= maxConsecutiveFailures`. -/
def markEndpointFailure (now : Int) (ep0 : EndpointConfig) : EndpointConfig :=
  let ep1 := { ep0 with failureCount := ep0.failureCount + 1
                        consecutiveFailures := ep0.consecutiveFailures + 1
                        consecutiveSuccesses := 0
                        lastFailureTime := some now
                        totalRequests := ep0.totalRequests + 1 }
  let ep2 := adjustEffectiveWeight ep1 false
  if ep2.failureCount ≥ maxFailures ∨ ep2.consecutiveFailures ≥ maxConsecutiveFailures then
    { ep2 with isActive := false
               isHealthy := false
               backoffDelay := min (ep2.backoffDelay * backoffMultiplier) maxBackoffDelay }
  else ep2

/-- `markEndpointSuccess`: bumps the success counters, folds the response time
into the exponential moving average with smoothing factor `alpha = 0.1`,
recomputes the weights, and decrements `failureCount` (the source computes
`Math.max(0, failureCount - 1)`, which is natural subtraction here) when
`failureCount > 0` and `consecutiveSuccesses >= recoveryThreshold`. -/
def markEndpointSuccess (now : Int) (rt : Rat) (ep0 : EndpointConfig) : EndpointConfig :=
  let ep1 := { ep0 with totalRequests := ep0.totalRequests + 1
                        successCount := ep0.successCount + 1
                        consecutiveSuccesses := ep0.consecutiveSuccesses + 1
                        consecutiveFailures := 0
                        lastSuccessTime := some now }
  let ep2 := { ep1 with responseTime :=
                 if ep1.responseTime = 0 then rt
                 else (1/10) * rt + (1 - 1/10) * ep1.responseTime }
  let ep3 := adjustEffectiveWeight ep2 true
  if ep3.failureCount > 0 ∧ ep3.consecutiveSuccesses ≥ recoveryThreshold then
    { ep3 with failureCount := ep3.failureCount - 1 }
  else ep3

/-- Success branch of `performHealthCheck` (the probe call succeeded with
response time `rt`): endpoints with `totalRequests > 0` are recorded through
`markEndpointSuccess`; never-used endpoints only get `responseTime` and
`lastSuccessTime` updated; then `isHealthy` is restored when it was false. -/
def performHealthCheckSuccess (now : Int) (rt : Rat) (ep0 : EndpointConfig) : EndpointConfig :=
  let ep1 :=
    if ep0.totalRequests > 0 then markEndpointSuccess now rt ep0
    else { ep0 with responseTime := rt, lastSuccessTime := some now }
  if ep1.isHealthy = false then { ep1 with isHealthy := true } else ep1

/-- Failure branch of `performHealthCheck`: only `isHealthy` is cleared. -/
def performHealthCheckFailure (ep : EndpointConfig) : EndpointConfig :=
  { ep with isHealthy := false }

/-- The endpoints that `performHealthChecks` probes: the active ones, then the
never-used ones (`totalRequests === 0`). -/
def healthCheckTargets (eps : List EndpointConfig) : List EndpointConfig :=
  eps.filter (fun ep => ep.isActive) ++ eps.filter (fun ep => ep.totalRequests == 0)

/-- The `LoadBalancingStrategy` union type of the source. -/
inductive LoadBalancingStrategy
  | round_robin
  | weighted_round_robin
  | least_connections
  | response_time
  | random
  deriving DecidableEq, Repr, Inhabited

/-- The mutable selection state of `RPCLoadBalancer`. -/
structure BalancerState where
  endpoints : List EndpointConfig
  currentIndex : Nat
  strategy : LoadBalancingStrategy
  deriving DecidableEq, Repr, Inhabited

/-- The candidate predicate of `getNextEndpoint`:
`ep.isActive && ep.isHealthy`. -/
def isAvailable (ep : EndpointConfig) : Bool := ep.isActive && ep.isHealthy

/-- `getTotalEffectiveWeight`: left fold of `effectiveWeight` starting at 0
(`reduce` with initial value 0). -/
def getTotalEffectiveWeight (eps : List EndpointConfig) : Rat :=
  eps.foldl (fun s ep => s + ep.effectiveWeight) 0

/-- The scanning loop of `weightedRoundRobin`: starting from
`maxCurrentWeight = 0` and no selection, walk the candidates keeping the first
index whose `currentWeight` strictly exceeds the running maximum.  `i` is the
index of the first element of the remaining list. -/
def wrrScanAux : List EndpointConfig → Nat → Rat → Option Nat → Rat × Option Nat
  | [], _, best, sel => (best, sel)
  | ep :: rest, i, best, sel =>
      if best < ep.currentWeight then wrrScanAux rest (i + 1) ep.currentWeight (some i)
      else wrrScanAux rest (i + 1) best sel

/-- The full scan of `weightedRoundRobin` over the candidate list. -/
def wrrScan (cands : List EndpointConfig) : Rat × Option Nat :=
  wrrScanAux cands 0 0 none

/-- The weight-update loop of `weightedRoundRobin`, walking the candidates
with their index: the selected candidate first has the total effective weight
subtracted from its `currentWeight`, then every candidate (the selected one
included) has its own `effectiveWeight` added. -/
def wrrUpdateAux (total : Rat) (selIdx : Nat) : Nat → List EndpointConfig → List EndpointConfig
  | _, [] => []
  | i, ep :: rest =>
      { ep with currentWeight :=
          (if i = selIdx then ep.currentWeight - total else ep.currentWeight) + ep.effectiveWeight } ::
        wrrUpdateAux total selIdx (i + 1) rest

/-- The weight update of `weightedRoundRobin` applied to the candidate list,
with the selected candidate given by index. -/
def wrrUpdate (cands : List EndpointConfig) (selIdx : Nat) : List EndpointConfig :=
  wrrUpdateAux (getTotalEffectiveWeight cands) selIdx 0 cands

/-- `weightedRoundRobin` on its candidate-list argument, returning the index
of the endpoint the source returns together with the updated candidate list.
When the scan selects nobody (every `currentWeight` is ≤ 0) the source
returns `activeEndpoints[0]` and performs no weight update. -/
def weightedRoundRobin (cands : List EndpointConfig) : Nat × List EndpointConfig :=
  match (wrrScan cands).2 with
  | none => (0, cands)
  | some i => (i, wrrUpdate cands i)

/-- `leastConnections`: `reduce` keeping the endpoint with the strictly
smaller `totalRequests`, seeded with the first candidate. -/
def leastConnectionsSel (h : EndpointConfig) (t : List EndpointConfig) : EndpointConfig :=
  t.foldl (fun m c => if c.totalRequests < m.totalRequests then c else m) h

/-- `responseTimeBased`: `reduce` keeping the endpoint with the strictly
smaller `responseTime`, seeded with the first candidate. -/
def responseTimeSel (h : EndpointConfig) (t : List EndpointConfig) : EndpointConfig :=
  t.foldl (fun m c => if c.responseTime < m.responseTime then c else m) h

/-- `Math.floor(Math.random() * length)` with the random draw `rand` made
explicit. -/
def randomIndex (rand : Rat) (len : Nat) : Nat := (Int.floor (rand * (len : Rat))).toNat

/-- Writes an updated candidate list back through the filtered view: the
source mutates the elements of `endpoints.filter(...)` in place, which are
references into `endpoints`.  `setFiltered p l rs` replaces the elements of
`l` satisfying `p` by the elements of `rs` in order. -/
def setFiltered (p : EndpointConfig → Bool) : List EndpointConfig → List EndpointConfig → List EndpointConfig
  | [], _ => []
  | e :: es, rs =>
      if p e then
        match rs with
        | [] => e :: es
        | r :: rs2 => r :: setFiltered p es rs2
      else e :: setFiltered p es rs

/-- `getNextEndpoint`: runs the recovery pass, filters the active-and-healthy
candidates, returns `none` when there are no candidates, and otherwise
dispatches on the strategy (the unreachable `default` switch branch of the
source coincides with the `weighted_round_robin` branch).  `rand` makes the
`Math.random()` draw of the `random` strategy explicit. -/
def getNextEndpoint (now : Int) (rand : Rat) (st : BalancerState) :
    Option EndpointConfig × BalancerState :=
  let eps := checkEndpointRecovery now st.endpoints
  let st1 := { st with endpoints := eps }
  match eps.filter isAvailable with
  | [] => (none, st1)
  | c :: cs =>
      match st1.strategy with
      | LoadBalancingStrategy.round_robin =>
          let cands := c :: cs
          let ep := cands.getD (st1.currentIndex % cands.length) c
          (some ep, { st1 with currentIndex := (st1.currentIndex + 1) % cands.length })
      | LoadBalancingStrategy.weighted_round_robin =>
          let cands := c :: cs
          let r := weightedRoundRobin cands
          (some (r.2.getD r.1 c), { st1 with endpoints := setFiltered isAvailable eps r.2 })
      | LoadBalancingStrategy.least_connections => (some (leastConnectionsSel c cs), st1)
      | LoadBalancingStrategy.response_time => (some (responseTimeSel c cs), st1)
      | LoadBalancingStrategy.random =>
          let cands := c :: cs
          (some (cands.getD (randomIndex rand cands.length) c), st1)

/-- `createClient`: throws `No available RPC endpoints` exactly when
`getNextEndpoint` yields `null`, and otherwise returns a client handle bound
to the chosen endpoint.  The state component records the mutations performed
by `getNextEndpoint` on the way. -/
def createClient (now : Int) (rand : Rat) (st : BalancerState) :
    Except String EndpointConfig × BalancerState :=
  match getNextEndpoint now rand st with
  | (none, st1) => (Except.error "No available RPC endpoints", st1)
  | (some ep, st1) => (Except.ok ep, st1)

/-- One wrapped asynchronous method call of the proxy installed by
`wrapClientWithErrorHandling`, for the client bound to the endpoint at index
`j` of the endpoint list.  `oracle u` gives the response time and outcome of
performing the underlying call against the endpoint with URL `u`.  Returns
the outcome surfaced to the caller, the balancer state afterwards, and the
list of URLs the call was attempted against, in order. -/
def wrappedCall {ε α : Type} (tEnd : Int) (rand : Rat)
    (oracle : String → Rat × Except ε α) (st : BalancerState) (j : Nat) :
    Except ε α × BalancerState × List String :=
  let ep := st.endpoints.getD j (mkEndpoint "")
  match (oracle ep.url).2 with
  | Except.ok v =>
      let st1 := { st with endpoints :=
                     st.endpoints.set j (markEndpointSuccess tEnd (oracle ep.url).1 ep) }
      (Except.ok v, st1, [ep.url])
  | Except.error e =>
      let st1 := { st with endpoints := st.endpoints.set j (markEndpointFailure tEnd ep) }
      match getNextEndpoint tEnd rand st1 with
      | (some nextEp, st2) =>
          if nextEp.url ≠ ep.url then ((oracle nextEp.url).2, st2, [ep.url, nextEp.url])
          else (Except.error e, st2, [ep.url])
      | (none, st2) => (Except.error e, st2, [ep.url])

/-- Modelled from the spec: the spec claims the original error is surfaced
"wrapped with endpoint context" (the endpoint URL attached to the error);
this definition follows those words for string errors, to be compared with
what the code actually surfaces. -/
def wrapWithEndpointContext (url e : String) : String :=
  "endpoint " ++ url ++ ": " ++ e

/-- `maxRetries` constant of `createBalancedSuiClient` (-1, documented in the
source as infinite retry). -/
def cbcMaxRetries : Int := -1

/-- The `while` guard of `createBalancedSuiClient`:
`maxRetries === -1 || retryCount < maxRetries`. -/
def cbcLoopGuard (retryCount : Nat) : Bool :=
  cbcMaxRetries == -1 || ((retryCount : Int) < cbcMaxRetries)

/-- The retry loop of `createBalancedSuiClient`, run for one iteration per
entry of `schedule` (the `Date.now()` value and random draw of each
iteration): each iteration tries `createClient`; a success exits the loop
with the client, and an error is caught, logged, blocked on for 5 s and then
retried.  The `none` outcome means the fuel ran out with the source still
looping. -/
def createBalancedLoop : List (Int × Rat) → BalancerState → Option EndpointConfig × BalancerState
  | [], st => (none, st)
  | step :: rest, st =>
      match createClient step.1 step.2 st with
      | (Except.ok ep, st1) => (some ep, st1)
      | (Except.error _, st1) => createBalancedLoop rest st1

/-- The per-endpoint operations of the balancer that mutate an endpoint
record, for stating state invariants. -/
inductive EndpointOp
  | success (now : Int) (rt : Rat)
  | failure (now : Int)
  | recover (now : Int)
  | probeSuccess (now : Int) (rt : Rat)
  | probeFailure
  deriving DecidableEq, Repr

/-- Applies one balancer operation to one endpoint record. -/
def applyEndpointOp : EndpointOp → EndpointConfig → EndpointConfig
  | EndpointOp.success now rt, ep => markEndpointSuccess now rt ep
  | EndpointOp.failure now, ep => markEndpointFailure now ep
  | EndpointOp.recover now, ep => recoverEndpoint now ep
  | EndpointOp.probeSuccess now rt, ep => performHealthCheckSuccess now rt ep
  | EndpointOp.probeFailure, ep => performHealthCheckFailure ep

/-- The effective-weight range invariant of the spec:
`minEffectiveWeight ≤ effectiveWeight ≤ 5.0`. -/
def WeightInv (ep : EndpointConfig) : Prop :=
  minEffectiveWeight ≤ ep.effectiveWeight ∧ ep.effectiveWeight ≤ 5

/-- A fresh endpoint that has already failed twice, one failure short of the
`maxFailures` threshold. -/
def epTwoFails : EndpointConfig := { mkEndpoint "https://a" with failureCount := 2 }

/-- An endpoint with one prior recorded failure and two consecutive
successes. -/
def epOneFail : EndpointConfig :=
  { mkEndpoint "https://b" with failureCount := 1, consecutiveSuccesses := 2 }

/-- An endpoint that has served live traffic (4 requests, 3 successes). -/
def epUsed : EndpointConfig :=
  { mkEndpoint "https://c" with totalRequests := 4, successCount := 3 }

/-- A deactivated endpoint: three failures recorded, last one at time 1000,
current backoff window 2000 ms. -/
def epC1 : EndpointConfig :=
  { mkEndpoint "https://a" with
      isActive := false
      isHealthy := false
      failureCount := 3
      consecutiveFailures := 3
      lastFailureTime := some 1000
      backoffDelay := 2000
      totalRequests := 3 }

/-- A candidate whose smoothing accumulator has been drained to 0. -/
def epC6a : EndpointConfig := { mkEndpoint "https://a" with currentWeight := 0 }

/-- A second candidate whose smoothing accumulator has been drained to 0. -/
def epC6b : EndpointConfig := { mkEndpoint "https://b" with currentWeight := 0 }

/-- A fresh candidate pair for exercising a regular weighted-round-robin
step. -/
def epC6c : EndpointConfig := mkEndpoint "https://c"

/-- Companion fresh candidate. -/
def epC6d : EndpointConfig := mkEndpoint "https://d"

/-- What the claim says one `weightedRoundRobin` step does: the returned
candidate carries the largest `currentWeight` of the candidate list, and the
list is rewritten by the subtract-total-then-add-own-effective-weight
update around that selection. -/
def wrrClaimHolds (cands : List EndpointConfig) : Prop :=
  (∀ ep ∈ cands,
    ep.currentWeight ≤ (cands.getD (weightedRoundRobin cands).1 (mkEndpoint "")).currentWeight) ∧
  (weightedRoundRobin cands).2 = wrrUpdate cands (weightedRoundRobin cands).1

/-- Strips the smoothing accumulator, the only endpoint field the
weighted-round-robin update writes. -/
def sansCurrentWeight (ep : EndpointConfig) : EndpointConfig :=
  { ep with currentWeight := 0 }

/-- A balancer whose single endpoint is marked unhealthy by a failed probe:
no recovery pass can make it selectable, since recovery never touches
`isHealthy`. -/
def stC3 : BalancerState :=
  { endpoints := [{ mkEndpoint "https://a" with isHealthy := false }]
    currentIndex := 0
    strategy := LoadBalancingStrategy.weighted_round_robin }

/-- A balancer with one fresh healthy endpoint. -/
def stC7 : BalancerState :=
  { endpoints := [mkEndpoint "https://a"]
    currentIndex := 0
    strategy := LoadBalancingStrategy.weighted_round_robin }

/-- A balancer with one fresh healthy endpoint, for exercising the wrapped
call path. -/
def stC2 : BalancerState :=
  { endpoints := [mkEndpoint "https://a"]
    currentIndex := 0
    strategy := LoadBalancingStrategy.weighted_round_robin }

/-- A transport that fails every call with the error string `boom` after
5 ms. -/
def oracleBoom : String → Rat × Except String Unit := fun _ => (5, Except.error "boom")

/-- A transport that succeeds on every call in 5 ms. -/
def oracleOk : String → Rat × Except String Unit := fun _ => (5, Except.ok ())

section ProjectionLemmas

variable (now : Int) (rt : Rat) (ep : EndpointConfig)

@[simp] lemma mes_totalRequests :
    (markEndpointSuccess now rt ep).totalRequests = ep.totalRequests + 1 := by
  simp only [markEndpointSuccess, adjustEffectiveWeight]
  split_ifs <;> rfl

@[simp] lemma mes_successCount :
    (markEndpointSuccess now rt ep).successCount = ep.successCount + 1 := by
  simp only [markEndpointSuccess, adjustEffectiveWeight]
  split_ifs <;> rfl

@[simp] lemma mes_consecutiveSuccesses :
    (markEndpointSuccess now rt ep).consecutiveSuccesses = ep.consecutiveSuccesses + 1 := by
  simp only [markEndpointSuccess, adjustEffectiveWeight]
  split_ifs <;> rfl

@[simp] lemma mes_consecutiveFailures :
    (markEndpointSuccess now rt ep).consecutiveFailures = 0 := by
  simp only [markEndpointSuccess, adjustEffectiveWeight]
  split_ifs <;> rfl

@[simp] lemma mes_isHealthy :
    (markEndpointSuccess now rt ep).isHealthy = ep.isHealthy := by
  simp only [markEndpointSuccess, adjustEffectiveWeight]
  split_ifs <;> rfl

@[simp] lemma mes_isActive :
    (markEndpointSuccess now rt ep).isActive = ep.isActive := by
  simp only [markEndpointSuccess, adjustEffectiveWeight]
  split_ifs <;> rfl

@[simp] lemma mes_url :
    (markEndpointSuccess now rt ep).url = ep.url := by
  simp only [markEndpointSuccess, adjustEffectiveWeight]
  split_ifs <;> rfl

@[simp] lemma mes_responseTime :
    (markEndpointSuccess now rt ep).responseTime =
      if ep.responseTime = 0 then rt else (1/10) * rt + (1 - 1/10) * ep.responseTime := by
  simp only [markEndpointSuccess, adjustEffectiveWeight]
  split_ifs <;> rfl

@[simp] lemma mes_effectiveWeight :
    (markEndpointSuccess now rt ep).effectiveWeight =
      max (1/10) (min 5 (1 + ((ep.successCount + 1 : Nat) : Rat) / ((ep.totalRequests + 1 : Nat) : Rat) * 2)) := by
  simp only [markEndpointSuccess, adjustEffectiveWeight, eq_self_iff_true, if_true,
    gt_iff_lt, Nat.succ_pos, if_pos]
  split_ifs <;> rfl

@[simp] lemma mes_weight :
    (markEndpointSuccess now rt ep).weight =
      max (1/10) (min 5 (1 + ((ep.successCount + 1 : Nat) : Rat) / ((ep.totalRequests + 1 : Nat) : Rat) * 2)) := by
  simp only [markEndpointSuccess, adjustEffectiveWeight, eq_self_iff_true, if_true,
    gt_iff_lt, Nat.succ_pos, if_pos]
  split_ifs <;> rfl

@[simp] lemma mes_failureCount :
    (markEndpointSuccess now rt ep).failureCount =
      if ep.failureCount > 0 ∧ ep.consecutiveSuccesses + 1 ≥ recoveryThreshold
      then ep.failureCount - 1 else ep.failureCount := by
  simp only [markEndpointSuccess, adjustEffectiveWeight, eq_self_iff_true, if_true]
  split_ifs <;> simp_all

@[simp] lemma mes_backoffDelay :
    (markEndpointSuccess now rt ep).backoffDelay = ep.backoffDelay := by
  simp only [markEndpointSuccess, adjustEffectiveWeight]
  split_ifs <;> rfl

@[simp] lemma mes_lastSuccessTime :
    (markEndpointSuccess now rt ep).lastSuccessTime = some now := by
  simp only [markEndpointSuccess, adjustEffectiveWeight]
  split_ifs <;> rfl

@[simp] lemma mes_lastFailureTime :
    (markEndpointSuccess now rt ep).lastFailureTime = ep.lastFailureTime := by
  simp only [markEndpointSuccess, adjustEffectiveWeight]
  split_ifs <;> rfl

@[simp] lemma mes_currentWeight :
    (markEndpointSuccess now rt ep).currentWeight = ep.currentWeight := by
  simp only [markEndpointSuccess, adjustEffectiveWeight]
  split_ifs <;> rfl

@[simp] lemma mes_lastHealthCheck :
    (markEndpointSuccess now rt ep).lastHealthCheck = ep.lastHealthCheck := by
  simp only [markEndpointSuccess, adjustEffectiveWeight]
  split_ifs <;> rfl

@[simp] lemma mef_failureCount :
    (markEndpointFailure now ep).failureCount = ep.failureCount + 1 := by
  simp only [markEndpointFailure, adjustEffectiveWeight, Bool.false_eq_true, if_false]
  split_ifs <;> rfl

@[simp] lemma mef_consecutiveFailures :
    (markEndpointFailure now ep).consecutiveFailures = ep.consecutiveFailures + 1 := by
  simp only [markEndpointFailure, adjustEffectiveWeight, Bool.false_eq_true, if_false]
  split_ifs <;> rfl

@[simp] lemma mef_totalRequests :
    (markEndpointFailure now ep).totalRequests = ep.totalRequests + 1 := by
  simp only [markEndpointFailure, adjustEffectiveWeight, Bool.false_eq_true, if_false]
  split_ifs <;> rfl

@[simp] lemma mef_consecutiveSuccesses :
    (markEndpointFailure now ep).consecutiveSuccesses = 0 := by
  simp only [markEndpointFailure, adjustEffectiveWeight, Bool.false_eq_true, if_false]
  split_ifs <;> rfl

@[simp] lemma mef_successCount :
    (markEndpointFailure now ep).successCount = ep.successCount := by
  simp only [markEndpointFailure, adjustEffectiveWeight, Bool.false_eq_true, if_false]
  split_ifs <;> rfl

@[simp] lemma mef_lastFailureTime :
    (markEndpointFailure now ep).lastFailureTime = some now := by
  simp only [markEndpointFailure, adjustEffectiveWeight, Bool.false_eq_true, if_false]
  split_ifs <;> rfl

@[simp] lemma mef_lastSuccessTime :
    (markEndpointFailure now ep).lastSuccessTime = ep.lastSuccessTime := by
  simp only [markEndpointFailure, adjustEffectiveWeight, Bool.false_eq_true, if_false]
  split_ifs <;> rfl

@[simp] lemma mef_url :
    (markEndpointFailure now ep).url = ep.url := by
  simp only [markEndpointFailure, adjustEffectiveWeight, Bool.false_eq_true, if_false]
  split_ifs <;> rfl

@[simp] lemma mef_effectiveWeight :
    (markEndpointFailure now ep).effectiveWeight =
      max minEffectiveWeight (ep.effectiveWeight * failureWeightPenalty) := by
  simp only [markEndpointFailure, adjustEffectiveWeight, Bool.false_eq_true, if_false]
  split_ifs <;> rfl

@[simp] lemma mef_isActive :
    (markEndpointFailure now ep).isActive =
      if ep.failureCount + 1 ≥ maxFailures ∨ ep.consecutiveFailures + 1 ≥ maxConsecutiveFailures
      then false else ep.isActive := by
  simp only [markEndpointFailure, adjustEffectiveWeight, Bool.false_eq_true, if_false]
  split_ifs <;> simp_all

@[simp] lemma mef_isHealthy :
    (markEndpointFailure now ep).isHealthy =
      if ep.failureCount + 1 ≥ maxFailures ∨ ep.consecutiveFailures + 1 ≥ maxConsecutiveFailures
      then false else ep.isHealthy := by
  simp only [markEndpointFailure, adjustEffectiveWeight, Bool.false_eq_true, if_false]
  split_ifs <;> simp_all

@[simp] lemma mef_backoffDelay :
    (markEndpointFailure now ep).backoffDelay =
      if ep.failureCount + 1 ≥ maxFailures ∨ ep.consecutiveFailures + 1 ≥ maxConsecutiveFailures
      then min (ep.backoffDelay * backoffMultiplier) maxBackoffDelay else ep.backoffDelay := by
  simp only [markEndpointFailure, adjustEffectiveWeight, Bool.false_eq_true, if_false]
  split_ifs <;> simp_all

@[simp] lemma mef_currentWeight :
    (markEndpointFailure now ep).currentWeight = ep.currentWeight := by
  simp only [markEndpointFailure, adjustEffectiveWeight, Bool.false_eq_true, if_false]
  split_ifs <;> rfl

@[simp] lemma mef_weight :
    (markEndpointFailure now ep).weight = ep.weight := by
  simp only [markEndpointFailure, adjustEffectiveWeight, Bool.false_eq_true, if_false]
  split_ifs <;> rfl

@[simp] lemma rec_isHealthy :
    (recoverEndpoint now ep).isHealthy = ep.isHealthy := by
  unfold recoverEndpoint
  cases ep.lastFailureTime <;> simp only [] <;> split_ifs <;> rfl

@[simp] lemma rec_url :
    (recoverEndpoint now ep).url = ep.url := by
  unfold recoverEndpoint
  cases ep.lastFailureTime <;> simp only [] <;> split_ifs <;> rfl

@[simp] lemma rec_effectiveWeight :
    (recoverEndpoint now ep).effectiveWeight = ep.effectiveWeight := by
  unfold recoverEndpoint
  cases ep.lastFailureTime <;> simp only [] <;> split_ifs <;> rfl

@[simp] lemma rec_totalRequests :
    (recoverEndpoint now ep).totalRequests = ep.totalRequests := by
  unfold recoverEndpoint
  cases ep.lastFailureTime <;> simp only [] <;> split_ifs <;> rfl

@[simp] lemma rec_successCount :
    (recoverEndpoint now ep).successCount = ep.successCount := by
  unfold recoverEndpoint
  cases ep.lastFailureTime <;> simp only [] <;> split_ifs <;> rfl

@[simp] lemma rec_responseTime :
    (recoverEndpoint now ep).responseTime = ep.responseTime := by
  unfold recoverEndpoint
  cases ep.lastFailureTime <;> simp only [] <;> split_ifs <;> rfl

@[simp] lemma rec_weight :
    (recoverEndpoint now ep).weight = ep.weight := by
  unfold recoverEndpoint
  cases ep.lastFailureTime <;> simp only [] <;> split_ifs <;> rfl

end ProjectionLemmas

/-- An endpoint whose `isHealthy` flag is set is unchanged by re-setting it. -/
lemma setHealthy_eq_self (ep : EndpointConfig) (h : ep.isHealthy = true) :
    { ep with isHealthy := true } = ep := by
  cases ep
  simp_all

/-- C4: recording a failure bumps the failure counters; when the updated
counters meet a threshold the endpoint is deactivated with doubled capped
backoff, otherwise its activation state and backoff are unchanged; three
consecutive failures on a fresh endpoint leave it inactive with
`backoffDelay = 2000` and `consecutiveFailures = 3`. -/
theorem C4_failure_deactivation (now : Int) (ep : EndpointConfig) :
    ((markEndpointFailure now ep).failureCount = ep.failureCount + 1 ∧
     (markEndpointFailure now ep).consecutiveFailures = ep.consecutiveFailures + 1) ∧
    ((markEndpointFailure now ep).failureCount ≥ 3 ∨
       (markEndpointFailure now ep).consecutiveFailures ≥ 5 →
      (markEndpointFailure now ep).isActive = false ∧
      (markEndpointFailure now ep).isHealthy = false ∧
      (markEndpointFailure now ep).backoffDelay = min (ep.backoffDelay * 2) 300000) ∧
    ((markEndpointFailure now ep).failureCount < 3 ∧
       (markEndpointFailure now ep).consecutiveFailures < 5 →
      (markEndpointFailure now ep).isActive = ep.isActive ∧
      (markEndpointFailure now ep).isHealthy = ep.isHealthy ∧
      (markEndpointFailure now ep).backoffDelay = ep.backoffDelay) ∧
    (∀ (t1 t2 t3 : Int) (url : String),
      (markEndpointFailure t3 (markEndpointFailure t2 (markEndpointFailure t1 (mkEndpoint url)))).isActive = false ∧
      (markEndpointFailure t3 (markEndpointFailure t2 (markEndpointFailure t1 (mkEndpoint url)))).backoffDelay = 2000 ∧
      (markEndpointFailure t3 (markEndpointFailure t2 (markEndpointFailure t1 (mkEndpoint url)))).consecutiveFailures = 3) := by
  refine ⟨⟨by simp, by simp⟩, ?_, ?_, ?_⟩
  · intro h
    simp only [mef_failureCount, mef_consecutiveFailures] at h
    have h2 : ep.failureCount + 1 ≥ maxFailures ∨ ep.consecutiveFailures + 1 ≥ maxConsecutiveFailures := by
      simpa [maxFailures, maxConsecutiveFailures] using h
    simp only [mef_isActive, mef_isHealthy, mef_backoffDelay]
    rw [if_pos h2, if_pos h2, if_pos h2]
    norm_num [backoffMultiplier, maxBackoffDelay]
  · intro h
    simp only [mef_failureCount, mef_consecutiveFailures] at h
    have h1 : ¬ (ep.failureCount + 1 ≥ 3 ∨ ep.consecutiveFailures + 1 ≥ 5) := by omega
    simp only [mef_isActive, mef_isHealthy, mef_backoffDelay, maxFailures, maxConsecutiveFailures]
    rw [if_neg h1, if_neg h1, if_neg h1]
    exact ⟨rfl, rfl, rfl⟩
  · intro t1 t2 t3 url
    norm_num [mef_isActive, mef_backoffDelay, mef_consecutiveFailures, mef_failureCount,
      mkEndpoint, maxFailures, maxConsecutiveFailures, backoffMultiplier, maxBackoffDelay,
      baseBackoffDelay]

/-- C4 witness: a third failure on an endpoint with two prior failures
deactivates it. -/
theorem C4_failure_deactivation_witness :
    (markEndpointFailure 7 epTwoFails).isActive = false ∧
    (markEndpointFailure 7 epTwoFails).isHealthy = false ∧
    (markEndpointFailure 7 epTwoFails).backoffDelay = min (epTwoFails.backoffDelay * 2) 300000 :=
  (C4_failure_deactivation 7 epTwoFails).2.1 (by norm_num [epTwoFails, mkEndpoint])

/-- C9: on every recorded success the response-time EMA becomes the latency
when it was 0 and `0.1*latency + 0.9*ema` otherwise; `effectiveWeight` and
`weight` are recomputed as `clamp(1 + 2*(successCount/totalRequests), 0.1, 5)`
from the updated counters; and when `failureCount > 0` and the updated
`consecutiveSuccesses` reaches 3, `failureCount` drops by exactly one, never
below zero. -/
theorem C9_success_recording (now : Int) (rt : Rat) (ep : EndpointConfig) :
    ((markEndpointSuccess now rt ep).responseTime =
       if ep.responseTime = 0 then rt else (1/10) * rt + (9/10) * ep.responseTime) ∧
    ((markEndpointSuccess now rt ep).effectiveWeight =
       max (1/10) (min 5 (1 + 2 * (((ep.successCount + 1 : Nat) : Rat) / ((ep.totalRequests + 1 : Nat) : Rat)))) ∧
     (markEndpointSuccess now rt ep).weight = (markEndpointSuccess now rt ep).effectiveWeight) ∧
    (ep.failureCount > 0 ∧ ep.consecutiveSuccesses + 1 ≥ 3 →
       (markEndpointSuccess now rt ep).failureCount + 1 = ep.failureCount) ∧
    (¬ (ep.failureCount > 0 ∧ ep.consecutiveSuccesses + 1 ≥ 3) →
       (markEndpointSuccess now rt ep).failureCount = ep.failureCount) := by
  refine ⟨?_, ⟨?_, ?_⟩, ?_, ?_⟩
  · rw [mes_responseTime]
    norm_num
  · rw [mes_effectiveWeight]
    ring_nf
  · rw [mes_effectiveWeight, mes_weight]
  · intro h
    rw [mes_failureCount, if_pos (by simpa [recoveryThreshold] using h)]
    omega
  · intro h
    rw [mes_failureCount, if_neg (by simpa [recoveryThreshold] using h)]

/-- C9 witness: three consecutive successes after one failure reduce the
failure count by exactly one. -/
theorem C9_success_recording_witness :
    (markEndpointSuccess 11 250 epOneFail).failureCount + 1 = epOneFail.failureCount :=
  (C9_success_recording 11 250 epOneFail).2.2.1 (by norm_num [epOneFail, mkEndpoint])

/-- C10: a successful background probe of an endpoint with
`totalRequests > 0` is recorded exactly like a successful live call — through
`markEndpointSuccess`, incrementing `totalRequests`, `successCount` and
`consecutiveSuccesses`, zeroing `consecutiveFailures` and folding the probe
latency into the EMA — while an endpoint with `totalRequests == 0` only gets
`responseTime`, `lastSuccessTime` and `isHealthy` refreshed, its counters
untouched. -/
theorem C10_probe_counting (now : Int) (rt : Rat) (ep : EndpointConfig) :
    (ep.totalRequests > 0 →
      performHealthCheckSuccess now rt ep = { markEndpointSuccess now rt ep with isHealthy := true } ∧
      (performHealthCheckSuccess now rt ep).totalRequests = ep.totalRequests + 1 ∧
      (performHealthCheckSuccess now rt ep).successCount = ep.successCount + 1 ∧
      (performHealthCheckSuccess now rt ep).consecutiveSuccesses = ep.consecutiveSuccesses + 1 ∧
      (performHealthCheckSuccess now rt ep).consecutiveFailures = 0 ∧
      (performHealthCheckSuccess now rt ep).responseTime =
        (if ep.responseTime = 0 then rt else (1/10) * rt + (9/10) * ep.responseTime)) ∧
    (ep.totalRequests = 0 →
      performHealthCheckSuccess now rt ep =
        { ep with responseTime := rt, lastSuccessTime := some now, isHealthy := true } ∧
      (performHealthCheckSuccess now rt ep).totalRequests = ep.totalRequests ∧
      (performHealthCheckSuccess now rt ep).successCount = ep.successCount ∧
      (performHealthCheckSuccess now rt ep).consecutiveSuccesses = ep.consecutiveSuccesses ∧
      (performHealthCheckSuccess now rt ep).consecutiveFailures = ep.consecutiveFailures) := by
  constructor
  · intro h
    have hmain : performHealthCheckSuccess now rt ep = { markEndpointSuccess now rt ep with isHealthy := true } := by
      unfold performHealthCheckSuccess
      rw [if_pos h]
      by_cases hh : (markEndpointSuccess now rt ep).isHealthy = false
      · rw [if_pos hh]
      · rw [if_neg hh]
        rw [setHealthy_eq_self _ (by revert hh; cases (markEndpointSuccess now rt ep).isHealthy <;> simp)]
    refine ⟨hmain, ?_, ?_, ?_, ?_, ?_⟩ <;> rw [hmain] <;> simp <;> norm_num
  · intro h
    have hmain : performHealthCheckSuccess now rt ep =
        { ep with responseTime := rt, lastSuccessTime := some now, isHealthy := true } := by
      unfold performHealthCheckSuccess
      have h0 : ¬ (ep.totalRequests > 0) := by omega
      rw [if_neg h0]
      by_cases hh : ep.isHealthy = false
      · rw [if_pos (show ({ ep with responseTime := rt, lastSuccessTime := some now } : EndpointConfig).isHealthy = false from hh)]
      · rw [if_neg (show ¬ ({ ep with responseTime := rt, lastSuccessTime := some now } : EndpointConfig).isHealthy = false from hh)]
        have ht : ep.isHealthy = true := by revert hh; cases ep.isHealthy <;> simp
        cases ep
        simp_all
    refine ⟨hmain, ?_, ?_, ?_, ?_⟩ <;> rw [hmain]

/-- C10 witness: probing a used endpoint inflates its request counters. -/
theorem C10_probe_counting_witness :
    (performHealthCheckSuccess 21 80 epUsed).totalRequests = epUsed.totalRequests + 1 ∧
    (performHealthCheckSuccess 21 80 epUsed).successCount = epUsed.successCount + 1 :=
  ⟨((C10_probe_counting 21 80 epUsed).1 (by norm_num [epUsed, mkEndpoint])).2.1,
   ((C10_probe_counting 21 80 epUsed).1 (by norm_num [epUsed, mkEndpoint])).2.2.1⟩

/-- Success recording always lands the effective weight in the clamp range. -/
lemma weightInv_markEndpointSuccess (now : Int) (rt : Rat) (ep : EndpointConfig) :
    WeightInv (markEndpointSuccess now rt ep) := by
  constructor
  · rw [mes_effectiveWeight]
    exact le_max_left _ _
  · rw [mes_effectiveWeight]
    exact max_le (by norm_num) (min_le_left _ _)

/-- The failure penalty keeps the effective weight in range. -/
lemma weightInv_markEndpointFailure (now : Int) (ep : EndpointConfig) (h : WeightInv ep) :
    WeightInv (markEndpointFailure now ep) := by
  obtain ⟨h1, h2⟩ := h
  constructor
  · rw [mef_effectiveWeight]
    exact le_max_left _ _
  · rw [mef_effectiveWeight]
    apply max_le
    · norm_num [minEffectiveWeight]
    · rw [failureWeightPenalty]
      linarith

/-- A successful probe keeps the effective weight in range. -/
lemma weightInv_probeSuccess (now : Int) (rt : Rat) (ep : EndpointConfig) (h : WeightInv ep) :
    WeightInv (performHealthCheckSuccess now rt ep) := by
  unfold performHealthCheckSuccess
  by_cases htr : ep.totalRequests > 0
  · rw [if_pos htr]
    have hm := weightInv_markEndpointSuccess now rt ep
    dsimp only
    split_ifs <;> exact hm
  · rw [if_neg htr]
    dsimp only
    split_ifs <;> exact h

/-- C8: initialization establishes
`minEffectiveWeight ≤ effectiveWeight ≤ 5.0`, and every per-endpoint
operation of the balancer (success and failure recording, backoff recovery,
health probes) preserves it. -/
theorem C8_effective_weight_range :
    (∀ u : String, WeightInv (mkEndpoint u)) ∧
    (∀ (op : EndpointOp) (ep : EndpointConfig), WeightInv ep → WeightInv (applyEndpointOp op ep)) := by
  constructor
  · intro u
    constructor <;> norm_num [mkEndpoint, minEffectiveWeight]
  · intro op ep h
    cases op with
    | success n r => exact weightInv_markEndpointSuccess n r ep
    | failure n => exact weightInv_markEndpointFailure n ep h
    | recover n =>
        exact ⟨by rw [applyEndpointOp, rec_effectiveWeight]; exact h.1,
               by rw [applyEndpointOp, rec_effectiveWeight]; exact h.2⟩
    | probeSuccess n r => exact weightInv_probeSuccess n r ep h
    | probeFailure => exact h

/-- C8 witness: the invariant survives a recorded failure on a fresh
endpoint. -/
theorem C8_effective_weight_range_witness :
    WeightInv (applyEndpointOp (EndpointOp.failure 5) (mkEndpoint "https://w")) :=
  C8_effective_weight_range.2 (EndpointOp.failure 5) (mkEndpoint "https://w")
    (by constructor <;> norm_num [mkEndpoint, minEffectiveWeight])

/-- C5: the registry performs no `url:weight` parsing, contradicting the
repository's own configuration documentation — a value configured as
`https://sui-mainnet.blockvision.org:3` (documented as weight 3) yields an
endpoint with static weight 1 and the `:3` suffix left inside the URL. -/
theorem C5_weight_suffix_ignored :
    loadEndpointsFromEnv ["https://sui-mainnet.blockvision.org:3"] =
      [mkEndpoint "https://sui-mainnet.blockvision.org:3"] ∧
    (loadEndpointsFromEnv ["https://sui-mainnet.blockvision.org:3"]).map (fun ep => ep.weight) = [1] ∧
    (loadEndpointsFromEnv ["https://sui-mainnet.blockvision.org:3"]).map (fun ep => ep.weight) ≠ [3] ∧
    (loadEndpointsFromEnv ["https://sui-mainnet.blockvision.org:3"]).map (fun ep => ep.url) =
      ["https://sui-mainnet.blockvision.org:3"] := by
  have h : jsTrim "https://sui-mainnet.blockvision.org:3" = "https://sui-mainnet.blockvision.org:3" := by decide
  refine ⟨?_, ?_, ?_, ?_⟩ <;> simp [loadEndpointsFromEnv, h, mkEndpoint] <;> norm_num

/-- C1 counterexample: a deactivated, previously used endpoint is never a
health-probe target while inactive, yet once its backoff window has elapsed
the recovery pass flips `isActive` to true with `isHealthy` still false — a
reactivation with no successful probe anywhere. -/
theorem C1_reactivated_without_probe :
    healthCheckTargets [epC1] = [] ∧
    (recoverEndpoint 100000 epC1).isActive = true ∧
    (recoverEndpoint 100000 epC1).isHealthy = false := by
  refine ⟨?_, ?_, ?_⟩
  · simp [healthCheckTargets, epC1, mkEndpoint]
  · norm_num [recoverEndpoint, epC1, mkEndpoint]
  · norm_num [recoverEndpoint, epC1, mkEndpoint]

/-- C1 amended: once the backoff window has elapsed, the recovery pass alone
reactivates the endpoint, resetting `failureCount`, `consecutiveFailures`,
`backoffDelay` and `currentWeight`, with no probe involved and `isHealthy`
left unchanged; background probes only ever target active or never-used
endpoints. -/
theorem C1_recovery_needs_no_probe (now t : Int) (ep : EndpointConfig)
    (h1 : ep.isActive = false) (h2 : ep.lastFailureTime = some t) (h3 : t ≠ 0)
    (h4 : ep.backoffDelay ≤ now - t) :
    recoverEndpoint now ep =
      { ep with isActive := true
                failureCount := 0
                backoffDelay := baseBackoffDelay
                currentWeight := ep.effectiveWeight
                consecutiveFailures := 0 } ∧
    (recoverEndpoint now ep).isHealthy = ep.isHealthy ∧
    (∀ (eps : List EndpointConfig) (e : EndpointConfig),
      e ∈ healthCheckTargets eps → e.isActive = true ∨ e.totalRequests = 0) := by
  refine ⟨?_, rec_isHealthy now ep, ?_⟩
  · unfold recoverEndpoint
    rw [h2]
    dsimp only
    rw [if_pos ⟨h1, h3, h4⟩]
  · intro eps e he
    rcases List.mem_append.mp he with hmem | hmem
    · exact Or.inl (List.mem_filter.mp hmem).2
    · right
      have := (List.mem_filter.mp hmem).2
      simpa using this

/-- C1 witness: the recovery pass applied to a concrete expired-backoff
endpoint. -/
theorem C1_recovery_needs_no_probe_witness :
    recoverEndpoint 100000 epC1 =
      { epC1 with isActive := true
                  failureCount := 0
                  backoffDelay := baseBackoffDelay
                  currentWeight := epC1.effectiveWeight
                  consecutiveFailures := 0 } :=
  (C1_recovery_needs_no_probe 100000 1000 epC1 rfl rfl (by norm_num)
    (by norm_num [epC1, mkEndpoint])).1

/-- Invariant of the weighted-round-robin scanning loop: the running maximum
only grows, every scanned candidate is bounded by the final maximum, and the
selection is either untouched or points (with absolute index) at a scanned
candidate achieving the final maximum strictly above the initial bound. -/
lemma wrrScanAux_spec (l : List EndpointConfig) : ∀ (i : Nat) (b : Rat) (s : Option Nat),
    b ≤ (wrrScanAux l i b s).1 ∧
    (∀ ep ∈ l, ep.currentWeight ≤ (wrrScanAux l i b s).1) ∧
    (wrrScanAux l i b s = (b, s) ∨
      ∃ k, ∃ hk : k < l.length, (wrrScanAux l i b s).2 = some (i + k) ∧
        (l.get ⟨k, hk⟩).currentWeight = (wrrScanAux l i b s).1 ∧ b < (wrrScanAux l i b s).1) := by
  induction l with
  | nil =>
      intro i b s
      exact ⟨le_refl b, by simp, Or.inl rfl⟩
  | cons ep rest ih =>
      intro i b s
      by_cases hlt : b < ep.currentWeight
      · have hstep : wrrScanAux (ep :: rest) i b s =
            wrrScanAux rest (i + 1) ep.currentWeight (some i) := by
          simp only [wrrScanAux]
          rw [if_pos hlt]
        obtain ⟨ih1, ih2, ih3⟩ := ih (i + 1) ep.currentWeight (some i)
        rw [hstep]
        refine ⟨le_of_lt (lt_of_lt_of_le hlt ih1), ?_, ?_⟩
        · intro e he
          rcases List.mem_cons.mp he with rfl | hmem
          · exact ih1
          · exact ih2 e hmem
        · rcases ih3 with heq | ⟨k, hk, hsel, hval, hlt2⟩
          · right
            refine ⟨0, by simp, ?_, ?_, ?_⟩
            · rw [heq]
              simp
            · rw [heq]
              simp
            · rw [heq]
              exact hlt
          · right
            refine ⟨k + 1, by simpa using Nat.succ_lt_succ hk, ?_, ?_, ?_⟩
            · rw [hsel]
              congr 1
              omega
            · simpa using hval
            · exact lt_trans hlt hlt2
      · have hstep : wrrScanAux (ep :: rest) i b s = wrrScanAux rest (i + 1) b s := by
          simp only [wrrScanAux]
          rw [if_neg hlt]
        obtain ⟨ih1, ih2, ih3⟩ := ih (i + 1) b s
        rw [hstep]
        refine ⟨ih1, ?_, ?_⟩
        · intro e he
          rcases List.mem_cons.mp he with rfl | hmem
          · exact le_trans (le_of_not_lt hlt) ih1
          · exact ih2 e hmem
        · rcases ih3 with heq | ⟨k, hk, hsel, hval, hlt2⟩
          · exact Or.inl heq
          · right
            refine ⟨k + 1, by simpa using Nat.succ_lt_succ hk, ?_, ?_, ?_⟩
            · rw [hsel]
              congr 1
              omega
            · simpa using hval
            · exact hlt2

/-- If the scan selects nobody, every candidate's accumulator is ≤ 0. -/
lemma wrrScan_none_bound (cands : List EndpointConfig) (h : (wrrScan cands).2 = none) :
    ∀ ep ∈ cands, ep.currentWeight ≤ 0 := by
  obtain ⟨h1, h2, h3⟩ := wrrScanAux_spec cands 0 0 none
  rcases h3 with heq | ⟨k, hk, hsel, -, -⟩
  · intro e he
    have h2' := h2 e he
    unfold wrrScan at *
    rwa [show (wrrScanAux cands 0 0 none).1 = 0 by rw [heq]] at h2'
  · unfold wrrScan at h
    rw [h] at hsel
    exact absurd hsel (by simp)

/-- If every candidate's accumulator is ≤ 0, the scan selects nobody. -/
lemma wrrScan_none_of_nonpos (cands : List EndpointConfig)
    (h : ∀ ep ∈ cands, ep.currentWeight ≤ 0) : (wrrScan cands).2 = none := by
  obtain ⟨h1, h2, h3⟩ := wrrScanAux_spec cands 0 0 none
  rcases h3 with heq | ⟨k, hk, hsel, hval, hlt⟩
  · unfold wrrScan
    rw [heq]
  · exfalso
    have := h (cands.get ⟨k, hk⟩) (cands.get_mem _ _)
    rw [hval] at this
    linarith

/-- If the scan selects index `k`, it is in range and carries a maximal
accumulator. -/
lemma wrrScan_some_max (cands : List EndpointConfig) (k : Nat)
    (h : (wrrScan cands).2 = some k) :
    ∃ hk : k < cands.length,
      ∀ ep ∈ cands, ep.currentWeight ≤ (cands.get ⟨k, hk⟩).currentWeight := by
  obtain ⟨h1, h2, h3⟩ := wrrScanAux_spec cands 0 0 none
  rcases h3 with heq | ⟨j, hj, hsel, hval, hlt⟩
  · unfold wrrScan at h
    rw [heq] at h
    exact absurd h (by simp)
  · unfold wrrScan at h
    rw [h] at hsel
    have hkj : k = j := by simpa using hsel
    subst hkj
    refine ⟨hj, ?_⟩
    intro e he
    rw [hval]
    exact h2 e he

/-- C6 amended: whenever some candidate has a positive `currentWeight`, a
weighted-round-robin step returns a candidate of maximal `currentWeight` and
applies the subtract-total-then-add-own-effective-weight update; when every
candidate's `currentWeight` is ≤ 0, it falls back to the first candidate and
performs no weight update at all. -/
theorem C6_wrr_selection (cands : List EndpointConfig) :
    ((∃ ep ∈ cands, 0 < ep.currentWeight) → wrrClaimHolds cands) ∧
    ((∀ ep ∈ cands, ep.currentWeight ≤ 0) →
      (weightedRoundRobin cands).1 = 0 ∧ (weightedRoundRobin cands).2 = cands) := by
  constructor
  · intro h
    cases hscan : (wrrScan cands).2 with
    | none =>
        obtain ⟨e, he, hpos⟩ := h
        have := wrrScan_none_bound cands hscan e he
        exact absurd hpos (by linarith)
    | some k =>
        obtain ⟨hk, hmax⟩ := wrrScan_some_max cands k hscan
        constructor
        · intro e he
          have hwr : (weightedRoundRobin cands).1 = k := by
            unfold weightedRoundRobin
            rw [hscan]
          rw [hwr, List.getD_eq_get?, List.get?_eq_get hk]
          exact hmax e he
        · unfold weightedRoundRobin
          rw [hscan]
  · intro h
    have hscan := wrrScan_none_of_nonpos cands h
    unfold weightedRoundRobin
    rw [hscan]
    exact ⟨rfl, rfl⟩

/-- C6 counterexample: on two candidates whose accumulators are both 0 the
source takes the scan's empty-selection fallback, returns the first candidate
and leaves both `currentWeight`s at 0, instead of performing the update the
claim prescribes for every non-empty candidate list. -/
theorem C6_wrr_no_update_on_drained :
    ¬ wrrClaimHolds [epC6a, epC6b] := by
  intro hcl
  obtain ⟨-, h2⟩ := hcl
  have hr : weightedRoundRobin [epC6a, epC6b] = (0, [epC6a, epC6b]) := by
    norm_num [weightedRoundRobin, wrrScan, wrrScanAux, epC6a, epC6b, mkEndpoint]
  rw [hr] at h2
  have h3 := congrArg (fun l => l.map (fun ep => ep.currentWeight)) h2
  norm_num [wrrUpdate, wrrUpdateAux, getTotalEffectiveWeight, epC6a, epC6b, mkEndpoint] at h3

/-- C6 witness: a regular step on two fresh candidates satisfies the claim's
description. -/
theorem C6_wrr_selection_witness : wrrClaimHolds [epC6c, epC6d] :=
  (C6_wrr_selection [epC6c, epC6d]).1
    ⟨epC6c, by simp, by norm_num [epC6c, mkEndpoint]⟩

/-- With every endpoint unhealthy the candidate filter is empty. -/
lemma filter_isAvailable_eq_nil (eps : List EndpointConfig)
    (h : ∀ ep ∈ eps, ep.isHealthy = false) : eps.filter isAvailable = [] := by
  rw [List.filter_eq_nil]
  intro a ha
  simp [isAvailable, h a ha]

/-- The recovery pass never heals an endpoint. -/
lemma checkEndpointRecovery_unhealthy (now : Int) (eps : List EndpointConfig)
    (h : ∀ ep ∈ eps, ep.isHealthy = false) :
    ∀ ep ∈ checkEndpointRecovery now eps, ep.isHealthy = false := by
  intro e he
  unfold checkEndpointRecovery at he
  obtain ⟨a, ha, rfl⟩ := List.mem_map.mp he
  rw [rec_isHealthy]
  exact h a ha

/-- With every endpoint unhealthy, `createClient` throws and only the
recovery pass has run. -/
lemma createClient_no_healthy (now : Int) (rand : Rat) (st : BalancerState)
    (h : ∀ ep ∈ st.endpoints, ep.isHealthy = false) :
    createClient now rand st =
      (Except.error "No available RPC endpoints",
       { st with endpoints := checkEndpointRecovery now st.endpoints }) := by
  have hf : (checkEndpointRecovery now st.endpoints).filter isAvailable = [] :=
    filter_isAvailable_eq_nil _ (checkEndpointRecovery_unhealthy now _ h)
  simp only [createClient, getNextEndpoint, hf]

/-- C3 amended: `createClient` itself surfaces the no-endpoint error, but
`createBalancedSuiClient` wraps it in an unbounded blocking retry loop
(`maxRetries = -1`, so the loop guard is always true): while no endpoint is
available the error is caught internally and the call retried forever —
acquisition does not terminate and no error reaches the caller. -/
theorem C3_unbounded_blocking_retry :
    (∀ (schedule : List (Int × Rat)) (st : BalancerState),
      (∀ ep ∈ st.endpoints, ep.isHealthy = false) →
      (createBalancedLoop schedule st).1 = none ∧
      (∀ ep ∈ (createBalancedLoop schedule st).2.endpoints, ep.isHealthy = false)) ∧
    (∀ n : Nat, cbcLoopGuard n = true) := by
  constructor
  · intro schedule
    induction schedule with
    | nil =>
        intro st h
        exact ⟨rfl, h⟩
    | cons step rest ih =>
        intro st h
        have hc := createClient_no_healthy step.1 step.2 st h
        have hnext : ∀ ep ∈ (checkEndpointRecovery step.1 st.endpoints), ep.isHealthy = false :=
          checkEndpointRecovery_unhealthy step.1 st.endpoints h
        simp only [createBalancedLoop, hc]
        exact ih _ hnext
  · intro n
    simp [cbcLoopGuard, cbcMaxRetries]

/-- C3 counterexample: with the single endpoint unhealthy, the inner
`createClient` throws, yet after two scheduled loop iterations (the second a
full `Date.now()` second later) `createBalancedSuiClient` is still looping
with no error surfaced, and its retry guard is still true after a million
iterations. -/
theorem C3_error_swallowed :
    (createClient 0 0 stC3).1 = Except.error "No available RPC endpoints" ∧
    createBalancedLoop [(0, 0), (1000000000, 0)] stC3 = (none, stC3) ∧
    cbcLoopGuard 1000000 = true := by
  have h0 : ∀ ep ∈ stC3.endpoints, ep.isHealthy = false := by
    simp [stC3, mkEndpoint]
  have hrec : checkEndpointRecovery 0 stC3.endpoints = stC3.endpoints := by
    simp [checkEndpointRecovery, stC3, mkEndpoint, recoverEndpoint]
  have hrec2 : checkEndpointRecovery 1000000000 stC3.endpoints = stC3.endpoints := by
    simp [checkEndpointRecovery, stC3, mkEndpoint, recoverEndpoint]
  have hcc := createClient_no_healthy 0 0 stC3 h0
  have hcc2 := createClient_no_healthy 1000000000 0 stC3 h0
  have hst : ({ stC3 with endpoints := checkEndpointRecovery 0 stC3.endpoints } : BalancerState) = stC3 := by
    rw [hrec]
  have hst2 : ({ stC3 with endpoints := checkEndpointRecovery 1000000000 stC3.endpoints } : BalancerState) = stC3 := by
    rw [hrec2]
  refine ⟨by rw [hcc], ?_, by simp [cbcLoopGuard, cbcMaxRetries]⟩
  simp only [createBalancedLoop, hcc, hcc2, hst, hst2]

/-- C3 witness: one loop iteration on the all-unhealthy balancer yields no
client and leaves every endpoint unhealthy. -/
theorem C3_unbounded_blocking_retry_witness :
    (createBalancedLoop [(0, 0)] stC3).1 = none ∧
    (∀ ep ∈ (createBalancedLoop [(0, 0)] stC3).2.endpoints, ep.isHealthy = false) :=
  C3_unbounded_blocking_retry.1 [(0, 0)] stC3 (by simp [stC3, mkEndpoint])

/-- An in-range `getD` is a member of the list. -/
lemma getD_mem_of_lt (l : List EndpointConfig) (n : Nat) (d : EndpointConfig)
    (h : n < l.length) : l.getD n d ∈ l := by
  rw [List.getD_eq_get?, List.get?_eq_get h]
  exact List.get_mem l n h

/-- The least-connections reduction returns one of its inputs. -/
lemma leastConnectionsSel_mem (t : List EndpointConfig) :
    ∀ h : EndpointConfig, leastConnectionsSel h t ∈ h :: t := by
  induction t with
  | nil =>
      intro h
      simp [leastConnectionsSel]
  | cons c t ih =>
      intro h
      have hm := ih (if c.totalRequests < h.totalRequests then c else h)
      have hstep : leastConnectionsSel h (c :: t) =
          leastConnectionsSel (if c.totalRequests < h.totalRequests then c else h) t := rfl
      rw [hstep]
      rcases List.mem_cons.mp hm with heq | hmem
      · rw [heq]
        split_ifs <;> simp
      · simp [hmem]

/-- The fastest-response reduction returns one of its inputs. -/
lemma responseTimeSel_mem (t : List EndpointConfig) :
    ∀ h : EndpointConfig, responseTimeSel h t ∈ h :: t := by
  induction t with
  | nil =>
      intro h
      simp [responseTimeSel]
  | cons c t ih =>
      intro h
      have hm := ih (if c.responseTime < h.responseTime then c else h)
      have hstep : responseTimeSel h (c :: t) =
          responseTimeSel (if c.responseTime < h.responseTime then c else h) t := rfl
      rw [hstep]
      rcases List.mem_cons.mp hm with heq | hmem
      · rw [heq]
        split_ifs <;> simp
      · simp [hmem]

/-- `Math.floor(rand * length)` stays in range for a unit-interval draw. -/
lemma randomIndex_lt (rand : Rat) (len : Nat) (h0 : 0 ≤ rand) (h1 : rand < 1)
    (hlen : 0 < len) : randomIndex rand len < len := by
  unfold randomIndex
  have hpos : (0 : Rat) < (len : Rat) := by exact_mod_cast hlen
  have hlt : rand * (len : Rat) < (len : Rat) := by
    calc rand * (len : Rat) < 1 * (len : Rat) := mul_lt_mul_of_pos_right h1 hpos
    _ = (len : Rat) := one_mul _
  have hfl : Int.floor (rand * (len : Rat)) < (len : Int) := by
    rw [Int.floor_lt]
    exact_mod_cast hlt
  have hnn : (0 : Int) ≤ Int.floor (rand * (len : Rat)) :=
    Int.floor_nonneg.mpr (by positivity)
  omega

/-- The weighted-round-robin update leaves list length unchanged. -/
lemma wrrUpdateAux_length (total : Rat) (sel : Nat) :
    ∀ (l : List EndpointConfig) (i : Nat), (wrrUpdateAux total sel i l).length = l.length := by
  intro l
  induction l with
  | nil => intro i; rfl
  | cons ep rest ih =>
      intro i
      simp only [wrrUpdateAux, List.length_cons, ih]

/-- The weighted-round-robin update touches only `currentWeight`. -/
lemma wrrUpdateAux_map_sans (total : Rat) (sel : Nat) :
    ∀ (l : List EndpointConfig) (i : Nat),
      (wrrUpdateAux total sel i l).map sansCurrentWeight = l.map sansCurrentWeight := by
  intro l
  induction l with
  | nil => intro i; rfl
  | cons ep rest ih =>
      intro i
      simp only [wrrUpdateAux, List.map_cons, ih]
      rfl

/-- The weighted-round-robin update preserves each position's URL. -/
lemma wrrUpdateAux_url_getD (total : Rat) (sel : Nat) :
    ∀ (l : List EndpointConfig) (i k : Nat) (d : EndpointConfig),
      k < l.length → ((wrrUpdateAux total sel i l).getD k d).url = (l.getD k d).url := by
  intro l
  induction l with
  | nil =>
      intro i k d h
      simp at h
  | cons ep rest ih =>
      intro i k d h
      cases k with
      | zero => rfl
      | succ k =>
          simp only [wrrUpdateAux, List.getD_cons_succ]
          exact ih (i + 1) k d (by simpa using h)

/-- Selection-level specification of `getNextEndpoint`: it yields nothing
exactly when no endpoint survives the recovery pass and the
active-and-healthy filter, and anything it yields carries the URL of a
filtered candidate. -/
lemma getNextEndpoint_spec (now : Int) (rand : Rat) (st : BalancerState)
    (h0 : 0 ≤ rand) (h1 : rand < 1) :
    ((getNextEndpoint now rand st).1 = none ↔
      (checkEndpointRecovery now st.endpoints).filter isAvailable = []) ∧
    (∀ ep, (getNextEndpoint now rand st).1 = some ep →
      ep.url ∈ ((checkEndpointRecovery now st.endpoints).filter isAvailable).map (fun e => e.url)) := by
  simp only [getNextEndpoint]
  cases hfil : (checkEndpointRecovery now st.endpoints).filter isAvailable with
  | nil =>
      simp
  | cons c cs =>
      cases hstrat : st.strategy
      case round_robin =>
          refine ⟨by simp, ?_⟩
          intro ep hep
          simp only [Option.some.injEq] at hep
          subst hep
          refine List.mem_map.mpr ⟨_, ?_, rfl⟩
          exact getD_mem_of_lt _ _ _ (Nat.mod_lt _ (by simp))
      case weighted_round_robin =>
          refine ⟨by simp, ?_⟩
          intro ep hep
          simp only [Option.some.injEq] at hep
          subst hep
          unfold weightedRoundRobin
          cases hscan : (wrrScan (c :: cs)).2 with
          | none =>
              simp only
              exact List.mem_map.mpr ⟨c, by simp, rfl⟩
          | some k =>
              simp only
              obtain ⟨hk, -⟩ := wrrScan_some_max (c :: cs) k hscan
              rw [show ((wrrUpdate (c :: cs) k).getD k c).url = ((c :: cs).getD k c).url from
                wrrUpdateAux_url_getD _ _ _ _ _ _ hk]
              exact List.mem_map.mpr ⟨_, getD_mem_of_lt _ _ _ hk, rfl⟩
      case least_connections =>
          refine ⟨by simp, ?_⟩
          intro ep hep
          simp only [Option.some.injEq] at hep
          subst hep
          exact List.mem_map.mpr ⟨_, leastConnectionsSel_mem cs c, rfl⟩
      case response_time =>
          refine ⟨by simp, ?_⟩
          intro ep hep
          simp only [Option.some.injEq] at hep
          subst hep
          exact List.mem_map.mpr ⟨_, responseTimeSel_mem cs c, rfl⟩
      case random =>
          refine ⟨by simp, ?_⟩
          intro ep hep
          simp only [Option.some.injEq] at hep
          subst hep
          refine List.mem_map.mpr ⟨_, ?_, rfl⟩
          exact getD_mem_of_lt _ _ _ (randomIndex_lt rand _ h0 h1 (by simp))

/-- C7: `createClient` throws `No available RPC endpoints` exactly when,
after the backoff recovery pass, no endpoint is both active and healthy; when
some endpoint survives the filter, the returned handle is bound (by URL) to a
member of that filtered set, whichever strategy is active. -/
theorem C7_createClient_availability (now : Int) (rand : Rat) (st : BalancerState)
    (h0 : 0 ≤ rand) (h1 : rand < 1) :
    ((createClient now rand st).1 = Except.error "No available RPC endpoints" ↔
      (checkEndpointRecovery now st.endpoints).filter isAvailable = []) ∧
    (∀ ep, (createClient now rand st).1 = Except.ok ep →
      ep.url ∈ ((checkEndpointRecovery now st.endpoints).filter isAvailable).map (fun e => e.url)) := by
  obtain ⟨hiff, hmem⟩ := getNextEndpoint_spec now rand st h0 h1
  unfold createClient
  cases hg : getNextEndpoint now rand st with
  | mk o st1 =>
      rw [hg] at hiff hmem
      cases o with
      | none =>
          simp only at hiff hmem ⊢
          refine ⟨by simpa using hiff, ?_⟩
          intro ep hep
          exact absurd hep (by simp)
      | some ep =>
          simp only at hiff hmem ⊢
          constructor
          · constructor
            · intro h
              exact absurd h (by simp)
            · intro h
              have := hiff.mpr h
              exact absurd this (by simp)
          · intro e he
            have : ep = e := by simpa using he
            subst this
            exact hmem ep rfl

/-- C7 witness: the availability equivalence evaluated on a one-endpoint
balancer. -/
theorem C7_createClient_availability_witness :
    (createClient 5 0 stC7).1 = Except.error "No available RPC endpoints" ↔
      (checkEndpointRecovery 5 stC7.endpoints).filter isAvailable = [] :=
  (C7_createClient_availability 5 0 stC7 (by norm_num) (by norm_num)).1

/-- Splicing a candidate rewrite back through the filter view changes only
what the rewrite itself changed. -/
lemma setFiltered_map_sans (p : EndpointConfig → Bool) :
    ∀ (l rs : List EndpointConfig),
      rs.map sansCurrentWeight = (l.filter p).map sansCurrentWeight →
      (setFiltered p l rs).map sansCurrentWeight = l.map sansCurrentWeight := by
  intro l
  induction l with
  | nil =>
      intro rs h
      rfl
  | cons e es ih =>
      intro rs h
      by_cases hp : p e
      · rw [List.filter_cons_of_pos hp] at h
        cases rs with
        | nil => simp at h
        | cons r rs2 =>
            simp only [List.map_cons, List.cons.injEq] at h
            obtain ⟨h1, h2⟩ := h
            simp only [setFiltered, if_pos hp, List.map_cons]
            rw [h1, ih rs2 h2]
      · rw [List.filter_cons_of_neg hp] at h
        simp only [setFiltered, if_neg hp, List.map_cons]
        rw [ih rs h]

/-- `getNextEndpoint` changes nothing about the endpoints except their
smoothing accumulators (and whatever the recovery pass did). -/
lemma getNextEndpoint_endpoints_sans (now : Int) (rand : Rat) (st : BalancerState) :
    ((getNextEndpoint now rand st).2).endpoints.map sansCurrentWeight =
      (checkEndpointRecovery now st.endpoints).map sansCurrentWeight := by
  simp only [getNextEndpoint]
  cases hfil : (checkEndpointRecovery now st.endpoints).filter isAvailable with
  | nil => rfl
  | cons c cs =>
      cases hstrat : st.strategy
      case round_robin => rfl
      case least_connections => rfl
      case response_time => rfl
      case random => rfl
      case weighted_round_robin =>
          simp only
          apply setFiltered_map_sans
          rw [hfil]
          unfold weightedRoundRobin
          cases hscan : (wrrScan (c :: cs)).2 with
          | none => rfl
          | some k =>
              simp only
              exact wrrUpdateAux_map_sans _ _ _ _

/-- `getD` after `set` at the written index. -/
lemma getD_set_self : ∀ (l : List EndpointConfig) (j : Nat) (a d : EndpointConfig),
    j < l.length → (l.set j a).getD j d = a := by
  intro l
  induction l with
  | nil =>
      intro j a d h
      simp at h
  | cons e es ih =>
      intro j a d h
      cases j with
      | zero => rfl
      | succ j =>
          simp only [List.set_cons_succ, List.getD_cons_succ]
          exact ih j a d (by simpa using h)

/-- `getD` commutes with `map` when the default is mapped too. -/
lemma getD_map (f : EndpointConfig → EndpointConfig) :
    ∀ (l : List EndpointConfig) (j : Nat) (d : EndpointConfig),
      (l.map f).getD j (f d) = f (l.getD j d) := by
  intro l
  induction l with
  | nil =>
      intro j d
      cases j <;> rfl
  | cons e es ih =>
      intro j d
      cases j with
      | zero => rfl
      | succ j =>
          simp only [List.map_cons, List.getD_cons_succ]
          exact ih j d

/-- Equal `sansCurrentWeight` images give equal `sansCurrentWeight` entries. -/
lemma sans_getD_of_map_eq (l1 l2 : List EndpointConfig)
    (h : l1.map sansCurrentWeight = l2.map sansCurrentWeight) (j : Nat) (d : EndpointConfig) :
    sansCurrentWeight (l1.getD j d) = sansCurrentWeight (l2.getD j d) := by
  have := congrArg (fun l => l.getD j (sansCurrentWeight d)) h
  simpa [getD_map] using this

/-- A recorded failure keeps the backoff delay positive. -/
lemma mef_backoffDelay_pos (now : Int) (ep : EndpointConfig) (hb : 0 < ep.backoffDelay) :
    0 < (markEndpointFailure now ep).backoffDelay := by
  rw [mef_backoffDelay]
  split_ifs
  · have h2 : 0 < ep.backoffDelay * backoffMultiplier := by
      unfold backoffMultiplier
      omega
    exact lt_min h2 (by norm_num [maxBackoffDelay])
  · exact hb

/-- A failure recorded at time `now` is not recovered by a recovery pass run
at the same instant. -/
lemma recover_markFailure_fixed (tEnd : Int) (ep : EndpointConfig) (hb : 0 < ep.backoffDelay) :
    recoverEndpoint tEnd (markEndpointFailure tEnd ep) = markEndpointFailure tEnd ep := by
  have hlf : (markEndpointFailure tEnd ep).lastFailureTime = some tEnd := mef_lastFailureTime tEnd ep
  have hbd : 0 < (markEndpointFailure tEnd ep).backoffDelay := mef_backoffDelay_pos tEnd ep hb
  unfold recoverEndpoint
  rw [hlf]
  dsimp only
  rw [if_neg]
  rintro ⟨-, -, hle⟩
  omega

/-- In-range `getD` does not depend on the default. -/
lemma getD_indep : ∀ (l : List EndpointConfig) (j : Nat) (d1 d2 : EndpointConfig),
    j < l.length → l.getD j d1 = l.getD j d2 := by
  intro l
  induction l with
  | nil =>
      intro j d1 d2 h
      simp at h
  | cons e es ih =>
      intro j d1 d2 h
      cases j with
      | zero => rfl
      | succ j =>
          simp only [List.getD_cons_succ]
          exact ih j d1 d2 (by simpa using h)

/-- After the failure path of a wrapped call, position `j` of the final
endpoint list holds exactly the failure-marked endpoint, up to the smoothing
accumulator. -/
lemma failover_state_sans (tEnd : Int) (rand : Rat) (st : BalancerState) (j : Nat)
    (hj : j < st.endpoints.length)
    (hb : 0 < (st.endpoints.getD j (mkEndpoint "")).backoffDelay) :
    sansCurrentWeight
      (((getNextEndpoint tEnd rand
          { st with endpoints :=
              st.endpoints.set j (markEndpointFailure tEnd (st.endpoints.getD j (mkEndpoint ""))) }).2).endpoints.getD
        j (mkEndpoint "")) =
      sansCurrentWeight (markEndpointFailure tEnd (st.endpoints.getD j (mkEndpoint ""))) := by
  set ep := st.endpoints.getD j (mkEndpoint "") with hep
  set epF := markEndpointFailure tEnd ep with hepF
  set st1 : BalancerState := { st with endpoints := st.endpoints.set j epF } with hst1
  have hmap := getNextEndpoint_endpoints_sans tEnd rand st1
  have h1 : sansCurrentWeight (((getNextEndpoint tEnd rand st1).2).endpoints.getD j (mkEndpoint "")) =
      sansCurrentWeight ((checkEndpointRecovery tEnd st1.endpoints).getD j (mkEndpoint "")) :=
    sans_getD_of_map_eq _ _ hmap j (mkEndpoint "")
  rw [h1]
  have hlen : j < st1.endpoints.length := by
    simpa [hst1] using hj
  have h2 : (checkEndpointRecovery tEnd st1.endpoints).getD j (mkEndpoint "") =
      (checkEndpointRecovery tEnd st1.endpoints).getD j (recoverEndpoint tEnd (mkEndpoint "")) := by
    apply getD_indep
    simpa [checkEndpointRecovery] using hlen
  rw [h2]
  unfold checkEndpointRecovery
  rw [getD_map]
  have h3 : st1.endpoints.getD j (mkEndpoint "") = epF := by
    simpa [hst1] using getD_set_self st.endpoints j epF (mkEndpoint "") hj
  rw [h3, hepF, recover_markFailure_fixed tEnd ep hb]

/-- C2 amended: every wrapped call attempts the bound endpoint first and at
most one other endpoint, never the same URL twice; a success is recorded
against the bound endpoint with its measured latency and returned; a failure
is recorded against the bound endpoint, then exactly one failover decision is
made by re-invoking the selection: a different endpoint gets the single
retry, whose outcome is returned raw, while the same endpoint or no endpoint
means the original error is surfaced to the caller unchanged. -/
theorem C2_single_failover {ε α : Type} (tEnd : Int) (rand : Rat)
    (oracle : String → Rat × Except ε α) (st : BalancerState) (j : Nat) (ep : EndpointConfig)
    (hj : j < st.endpoints.length)
    (hep : st.endpoints.getD j (mkEndpoint "") = ep)
    (hb : 0 < ep.backoffDelay) :
    ((wrappedCall tEnd rand oracle st j).2.2.length ≤ 2 ∧
     (wrappedCall tEnd rand oracle st j).2.2.head? = some ep.url) ∧
    (∀ u v : String, (wrappedCall tEnd rand oracle st j).2.2 = [u, v] →
      u = ep.url ∧ v ≠ ep.url) ∧
    (∀ v rt1, oracle ep.url = (rt1, Except.ok v) →
      (wrappedCall tEnd rand oracle st j).1 = Except.ok v ∧
      (wrappedCall tEnd rand oracle st j).2.1.endpoints.getD j (mkEndpoint "") =
        markEndpointSuccess tEnd rt1 ep ∧
      (wrappedCall tEnd rand oracle st j).2.2 = [ep.url]) ∧
    (∀ e rt1, oracle ep.url = (rt1, Except.error e) →
      sansCurrentWeight ((wrappedCall tEnd rand oracle st j).2.1.endpoints.getD j (mkEndpoint "")) =
        sansCurrentWeight (markEndpointFailure tEnd ep) ∧
      (∀ nextEp,
        (getNextEndpoint tEnd rand
          { st with endpoints := st.endpoints.set j (markEndpointFailure tEnd ep) }).1 = some nextEp →
        (nextEp.url ≠ ep.url →
          (wrappedCall tEnd rand oracle st j).1 = (oracle nextEp.url).2 ∧
          (wrappedCall tEnd rand oracle st j).2.2 = [ep.url, nextEp.url]) ∧
        (nextEp.url = ep.url →
          (wrappedCall tEnd rand oracle st j).1 = Except.error e ∧
          (wrappedCall tEnd rand oracle st j).2.2 = [ep.url])) ∧
      ((getNextEndpoint tEnd rand
          { st with endpoints := st.endpoints.set j (markEndpointFailure tEnd ep) }).1 = none →
        (wrappedCall tEnd rand oracle st j).1 = Except.error e ∧
        (wrappedCall tEnd rand oracle st j).2.2 = [ep.url])) := by
  subst hep
  set ep := st.endpoints.getD j (mkEndpoint "") with hep
  simp only [wrappedCall]
  rw [← hep]
  cases ho : (oracle ep.url).2 with
  | ok v =>
      refine ⟨⟨by simp, by simp⟩, by simp, ?_, ?_⟩
      · intro v' rt1 h3
        have h2 : (oracle ep.url).2 = Except.ok v' := by rw [h3]
        have hv : v = v' := by
          rw [ho] at h2
          simpa using h2
        have h1 : (oracle ep.url).1 = rt1 := by rw [h3]
        subst hv
        refine ⟨rfl, ?_, rfl⟩
        simp only
        rw [getD_set_self st.endpoints j _ (mkEndpoint "") hj, h1]
      · intro e rt1 h4
        have h2 : (oracle ep.url).2 = Except.error e := by rw [h4]
        rw [ho] at h2
        exact absurd h2 (by simp)
  | error e0 =>
      cases hg : getNextEndpoint tEnd rand
          { st with endpoints := st.endpoints.set j (markEndpointFailure tEnd ep) } with
      | mk o st2 =>
          have hsans := failover_state_sans tEnd rand st j hj hb
          rw [hg] at hsans
          cases o with
          | some nextEp =>
              dsimp only
              by_cases hne : nextEp.url ≠ ep.url
              · rw [if_pos hne]
                refine ⟨⟨by simp, by simp⟩, ?_, ?_, ?_⟩
                · intro u v huv
                  simp only [List.cons.injEq] at huv
                  obtain ⟨h1, h2, -⟩ := huv
                  exact ⟨h1.symm, by rw [← h2]; exact hne⟩
                · intro v rt1 h3
                  have h2 : (oracle ep.url).2 = Except.ok v := by rw [h3]
                  rw [ho] at h2
                  exact absurd h2 (by simp)
                · intro e rt1 h4
                  refine ⟨hsans, ?_, ?_⟩
                  · intro nextEp' hsome
                    have : nextEp = nextEp' := by simpa using hsome
                    subst this
                    exact ⟨fun _ => ⟨rfl, rfl⟩, fun habs => absurd habs hne⟩
                  · intro hnone
                    exact absurd hnone (by simp)
              · rw [if_neg hne]
                have heq : nextEp.url = ep.url := by
                  by_contra hcon
                  exact hne hcon
                refine ⟨⟨by simp, by simp⟩, by simp, ?_, ?_⟩
                · intro v rt1 h3
                  have h2 : (oracle ep.url).2 = Except.ok v := by rw [h3]
                  rw [ho] at h2
                  exact absurd h2 (by simp)
                · intro e rt1 h4
                  have h2 : (oracle ep.url).2 = Except.error e := by rw [h4]
                  rw [ho] at h2
                  have he0 : e0 = e := by simpa using h2
                  subst he0
                  refine ⟨hsans, ?_, ?_⟩
                  · intro nextEp' hsome
                    have : nextEp = nextEp' := by simpa using hsome
                    subst this
                    exact ⟨fun habs => absurd heq habs, fun _ => ⟨rfl, rfl⟩⟩
                  · intro hnone
                    exact absurd hnone (by simp)
          | none =>
              dsimp only
              refine ⟨⟨by simp, by simp⟩, by simp, ?_, ?_⟩
              · intro v rt1 h3
                have h2 : (oracle ep.url).2 = Except.ok v := by rw [h3]
                rw [ho] at h2
                exact absurd h2 (by simp)
              · intro e rt1 h4
                have h2 : (oracle ep.url).2 = Except.error e := by rw [h4]
                rw [ho] at h2
                have he0 : e0 = e := by simpa using h2
                subst he0
                refine ⟨hsans, ?_, ?_⟩
                · intro nextEp' hsome
                  exact absurd hsome (by simp)
                · intro hnone
                  exact ⟨rfl, rfl⟩

/-- C2 witness: a successful wrapped call on a one-endpoint balancer is
returned and recorded with its latency. -/
theorem C2_single_failover_witness :
    (wrappedCall 9 0 oracleOk stC2 0).1 = Except.ok () ∧
    (wrappedCall 9 0 oracleOk stC2 0).2.1.endpoints.getD 0 (mkEndpoint "") =
      markEndpointSuccess 9 5 (mkEndpoint "https://a") ∧
    (wrappedCall 9 0 oracleOk stC2 0).2.2 = [(mkEndpoint "https://a").url] :=
  (C2_single_failover 9 0 oracleOk stC2 0 (mkEndpoint "https://a")
      (by simp [stC2]) rfl (by norm_num [mkEndpoint, baseBackoffDelay])).2.2.1
    () 5 rfl

/-- C2 counterexample: when the failover re-selection lands on the same
endpoint, the caller receives exactly the original error value `boom`, not an
error wrapped with endpoint context as the claim describes. -/
theorem C2_error_not_wrapped :
    (wrappedCall 9 0 oracleBoom stC2 0).1 = Except.error "boom" ∧
    "boom" ≠ wrapWithEndpointContext "https://a" "boom" := by
  constructor
  · norm_num [wrappedCall, oracleBoom, stC2, mkEndpoint, markEndpointFailure,
      adjustEffectiveWeight, getNextEndpoint, checkEndpointRecovery, recoverEndpoint,
      isAvailable, weightedRoundRobin, wrrScan, wrrScanAux, wrrUpdate, wrrUpdateAux,
      getTotalEffectiveWeight, setFiltered, maxFailures, maxConsecutiveFailures,
      minEffectiveWeight, failureWeightPenalty, backoffMultiplier, maxBackoffDelay]
  · decide
